import Mathlib

/-!
Shallow embedding of `src/valis-client.ts` (the `ValisClient` class): the
connection-lifecycle state machine, the serial command queue, the reconnect
backoff computation and the heartbeat monitor, together with proofs about
the specification's claims.

Modelling conventions:
* The client is single-threaded and event-driven; we embed it as an
  executable step function `step : State → Ev → State × List Output` where
  each `Ev` constructor corresponds to one handler or timer callback of the
  source (`onOpen`, `onMessage`, `onClose`, `onError`, the per-request
  timeout callback, the connect-timeout callback, the heartbeat interval
  callback, `connect()` and the executor body of `sendCommand`).
* JavaScript promises settle once; we record every `resolve`/`reject` call
  the code makes as an `Output` and identify requests by a fresh numeric id
  (`rid`), generated by a counter threaded through the state.
* `QueueItem.sent` and `State.sentLog` are history (ghost) variables: they
  record that a queue item's payload has been written to the socket and the
  order of all writes.  They are written exactly where the source calls
  `ws.send` and nowhere else; no guard of the model reads them.
* `Math.random()` draws are modelled by a rational parameter `rng` fixed in
  the state; the pure delay computation is also exposed as `delayMs` with
  the draw as an argument.
* The model keeps a single socket slot (`State.ws` with its ready state);
  events of a socket whose listeners were removed by `cleanup()` are
  disabled by the `ws = null` guard.
-/

namespace Valis

/-- Connection status, mirroring `ValisClientStatus` in the source. -/
inductive Status
  | idle
  | connecting
  | openSt
  | reconnecting
  | closing
  | closed
deriving DecidableEq, Repr

/-- The `this.ws` slot together with the socket's ready state:
`null` (no socket), a created socket not yet open (`CONNECTING`),
an open socket (`OPEN`), or a socket on which `close()` was called
(`CLOSING`). -/
inductive WS
  | null
  | connectingWS
  | openWS
  | closingWS
deriving DecidableEq, Repr

/-- Options after the constructor merge `{ ...DEFAULTS, ...opts }`.
`heartbeatIntervalMs` is `Option ℤ`: `none` models an explicit
`null`/`undefined` value (the source comment says "Set 0/null to disable").
The `onLog` sink is omitted (pure observation). -/
structure Opts where
  reconnect : Bool
  reconnectInitialDelayMs : ℕ
  reconnectMaxDelayMs : ℕ
  reconnectJitter : ℚ
  requestTimeoutMs : ℕ
  heartbeatIntervalMs : Option ℤ
deriving DecidableEq, Repr

/-- Caller-supplied options: each field is `none` when the key is absent
from the options object, `some v` when present with value `v`. -/
structure UserOpts where
  reconnect : Option Bool := none
  reconnectInitialDelayMs : Option ℕ := none
  reconnectMaxDelayMs : Option ℕ := none
  reconnectJitter : Option ℚ := none
  requestTimeoutMs : Option ℕ := none
  heartbeatIntervalMs : Option (Option ℤ) := none
deriving DecidableEq, Repr

/-- The `DEFAULTS` constant of the source. -/
def DEFAULTS : Opts :=
  { reconnect := true
    reconnectInitialDelayMs := 500
    reconnectMaxDelayMs := 12000
    reconnectJitter := 1 / 5
    requestTimeoutMs := 8000
    heartbeatIntervalMs := some 15000 }

/-- The constructor's `this.opts = { ...DEFAULTS, ...opts }`: a key present
in `opts` overrides the default, an absent key keeps the default. -/
def mergeOpts (u : UserOpts) : Opts :=
  { reconnect := u.reconnect.getD DEFAULTS.reconnect
    reconnectInitialDelayMs :=
      u.reconnectInitialDelayMs.getD DEFAULTS.reconnectInitialDelayMs
    reconnectMaxDelayMs := u.reconnectMaxDelayMs.getD DEFAULTS.reconnectMaxDelayMs
    reconnectJitter := u.reconnectJitter.getD DEFAULTS.reconnectJitter
    requestTimeoutMs := u.requestTimeoutMs.getD DEFAULTS.requestTimeoutMs
    heartbeatIntervalMs := u.heartbeatIntervalMs.getD DEFAULTS.heartbeatIntervalMs }

/-- One entry of `this.queue` (a `QueueItem` of the source): the request id
`rid` identifies the promise (`resolve`/`reject` pair); `payload` is the
wire text.  `sent` is a history variable set exactly when `flushQueue`
writes the payload to the socket. -/
structure QueueItem where
  rid : ℕ
  payload : String
  sent : Bool
deriving DecidableEq, Repr

/-- An armed per-request timeout timer (`setTimeout` in `sendCommand`):
the callback closure captures the request's `payload` and rejects the
request's promise `rid`. -/
structure ReqTimer where
  rid : ℕ
  payload : String
deriving DecidableEq, Repr

/-- The error values the queue machinery rejects with. -/
inductive RejReason
  | timedOut (ms : ℕ)
  | connectionClosed
deriving DecidableEq, Repr

/-- The `Error` message strings used by the source. -/
def errorMessage : RejReason → String
  | .timedOut ms => "Request timed out after " ++ toString ms ++ " ms"
  | .connectionClosed => "Connection closed"

/-- Observable effects of one step: socket writes, promise settlements and
emitted events. -/
inductive Output
  | sentPayload (rid : ℕ) (payload : String)
  | resolved (rid : ℕ) (data : String)
  | rejected (rid : ℕ) (reason : RejReason)
  | emitMessage (data : String)
  | emitOpen
  | emitClose
  | emitError
  | emitReconnecting (attempt : ℕ) (delayMs : ℤ)
deriving DecidableEq, Repr

/-- The mutable fields of a `ValisClient` instance, plus the armed request
timers, the fresh-id counters and the history variables. -/
structure State where
  opts : Opts
  ws : WS
  status : Status
  reconnectAttempt : ℕ
  connectPromise : Option ℕ
  heartbeatTimer : Bool
  awaitingResponse : Bool
  manualClose : Bool
  queue : List QueueItem
  timers : List ReqTimer
  nextRid : ℕ
  nextPid : ℕ
  sentLog : List ℕ
  rng : ℚ
deriving DecidableEq, Repr

/-- Backoff base of `scheduleReconnect`:
`Math.min(reconnectMaxDelayMs, reconnectInitialDelayMs * 2 ** attempt)`. -/
def baseDelay (maxD initD k : ℕ) : ℕ :=
  min maxD (initD * 2 ^ k)

/-- The delay of `scheduleReconnect` for attempt exponent `k` and random
draw `u`: `Math.floor(base + base * jitter * u)`. -/
def delayMs (maxD initD : ℕ) (j u : ℚ) (k : ℕ) : ℤ :=
  ⌊(baseDelay maxD initD k : ℚ) + (baseDelay maxD initD k : ℚ) * j * u⌋

/-- `flushQueue`: if the socket is open, nothing is awaiting a response and
the queue is non-empty, mark in-flight and write the head's payload. -/
def flushQueue (s : State) : State × List Output :=
  if s.ws ≠ WS.openWS then (s, [])
  else if s.awaitingResponse then (s, [])
  else
    match s.queue with
    | [] => (s, [])
    | front :: rest =>
        ({ s with
            awaitingResponse := true
            queue := { front with sent := true } :: rest
            sentLog := s.sentLog ++ [front.rid] },
          [Output.sentPayload front.rid front.payload])

/-- `startHeartbeat`: `if (!interval || interval <= 0) return;` then install
the repeating timer. -/
def startHeartbeat (s : State) : State :=
  match s.opts.heartbeatIntervalMs with
  | none => s
  | some i => if i ≤ 0 then s else { s with heartbeatTimer := true }

/-- `scheduleReconnect`: set status, compute the delay from the current
attempt counter, post-increment the counter, emit `reconnecting` with the
incremented counter and the delay.  The scheduled `connect()` call is
modelled by a later `Ev.connectCall`. -/
def scheduleReconnect (s : State) : State × List Output :=
  let d := delayMs s.opts.reconnectMaxDelayMs s.opts.reconnectInitialDelayMs
    s.opts.reconnectJitter s.rng s.reconnectAttempt
  ({ s with status := .reconnecting, reconnectAttempt := s.reconnectAttempt + 1 },
    [Output.emitReconnecting (s.reconnectAttempt + 1) d])

/-- Outcome of a `connect()` call: resolved immediately (socket already
open), the already-pending promise, or a freshly started attempt. -/
inductive ConnectOutcome
  | alreadyOpen
  | pending (pid : ℕ)
  | started (pid : ℕ)
deriving DecidableEq, Repr

/-- `connect()`: return immediately when the socket is open; return the
stored promise when a connect attempt is pending; otherwise clear
`manualClose`, set status `connecting`, create the socket and store a fresh
connect promise. -/
def connectCl (s : State) : State × ConnectOutcome :=
  if s.ws = WS.openWS then (s, .alreadyOpen)
  else
    match s.connectPromise with
    | some pid => (s, .pending pid)
    | none =>
        ({ s with
            manualClose := false
            status := .connecting
            ws := WS.connectingWS
            connectPromise := some s.nextPid
            nextPid := s.nextPid + 1 },
          .started s.nextPid)

/-- `onOpen`: status `open`, reset the reconnect attempt counter, emit
`open`, flush the queue, start the heartbeat, clear the connect promise. -/
def onOpen (s : State) : State × List Output :=
  let s1 := { s with status := .openSt, ws := WS.openWS, reconnectAttempt := 0 }
  let fo := flushQueue s1
  let s3 := startHeartbeat fo.1
  ({ s3 with connectPromise := none }, Output.emitOpen :: fo.2)

/-- `onMessage`: clear the in-flight flag, pop the queue head if any
(cancelling its timer and resolving it with the data), otherwise emit an
unsolicited `message` event; then flush. -/
def onMessage (s : State) (data : String) : State × List Output :=
  match s.queue with
  | front :: rest =>
      let fo := flushQueue { s with
        awaitingResponse := false
        queue := rest
        timers := s.timers.filter (fun t => t.rid ≠ front.rid) }
      (fo.1, Output.resolved front.rid data :: fo.2)
  | [] =>
      let fo := flushQueue { s with awaitingResponse := false }
      (fo.1, Output.emitMessage data :: fo.2)

/-- The rejection outputs of the `while (this.queue.length)` drain loop of
`onClose`, in FIFO order. -/
def drainOutputs : List QueueItem → List Output
  | [] => []
  | it :: rest => Output.rejected it.rid RejReason.connectionClosed :: drainOutputs rest

/-- `onClose`: status `closed`, stop the heartbeat, emit `close`, drain the
queue rejecting every pending request with `Connection closed` (cancelling
its timer), clear the socket slot and connect promise, and schedule a
reconnect unless the close was manual or reconnection is disabled.
The source does not touch `awaitingResponse` here. -/
def onClose (s : State) : State × List Output :=
  let drained := drainOutputs s.queue
  let s1 := { s with
    status := .closed
    heartbeatTimer := false
    queue := []
    timers := s.timers.filter (fun t => ¬ (s.queue.map QueueItem.rid).contains t.rid)
    ws := WS.null
    connectPromise := none }
  if ¬ s.manualClose ∧ s.opts.reconnect then
    let so := scheduleReconnect s1
    (so.1, Output.emitClose :: drained ++ so.2)
  else
    (s1, Output.emitClose :: drained)

/-- `onError`: emit an `error` event, touch nothing else. -/
def onError (s : State) : State × List Output :=
  (s, [Output.emitError])

/-- The executor body of `sendCommand` once the payload is fixed: arm the
request timer, push a `QueueItem` with a fresh id, flush. -/
def sendCommand (s : State) (payload : String) : State × List Output :=
  flushQueue { s with
    nextRid := s.nextRid + 1
    timers := s.timers ++ [{ rid := s.nextRid, payload := payload }]
    queue := s.queue ++ [{ rid := s.nextRid, payload := payload, sent := false }] }

/-- `maybeReconnectOnTimeout`: if the socket is still nominally open and
reconnection is enabled, call `ws.close(4001)` (ready state leaves `OPEN`;
the close event itself arrives later). -/
def maybeReconnectOnTimeout (s : State) : State :=
  if s.ws = WS.openWS ∧ s.opts.reconnect then { s with ws := WS.closingWS } else s

/-- The request-timeout callback for a timer that captured `payload` and the
promise `rid`: if the queue head's payload equals the captured payload,
shift it and clear the in-flight flag; reject the promise with the timeout
error; then `maybeReconnectOnTimeout`.  The shifted head's own timer is not
cancelled here (the source calls no `clearTimeout` in this callback). -/
def onRequestTimeout (s : State) (rid : ℕ) (payload : String) : State × List Output :=
  let s1 :=
    match s.queue with
    | front :: rest =>
        if front.payload = payload then
          { s with queue := rest, awaitingResponse := false }
        else s
    | [] => s
  (maybeReconnectOnTimeout s1,
    [Output.rejected rid (RejReason.timedOut s.opts.requestTimeoutMs)])

/-- The heartbeat interval callback: return when a request is in flight or
the queue is non-empty, otherwise issue the `network` probe through
`sendCommand`. -/
def heartbeatTick (s : State) : State × List Output :=
  if s.awaitingResponse ∨ s.queue ≠ [] then (s, [])
  else sendCommand s "network"

/-- The connect-timeout callback: if the status never reached `open`, close
the half-open socket and clear the connect promise. -/
def onConnectTimeout (s : State) : State × List Output :=
  if s.status ≠ Status.openSt then
    ({ s with
        ws := if s.ws = WS.null then WS.null else WS.closingWS
        connectPromise := none }, [])
  else (s, [])

/-- Events driving the machine: public calls, socket events and timer
callbacks. -/
inductive Ev
  | connectCall
  | send (payload : String)
  | socketOpened
  | socketMessage (data : String)
  | socketClosed
  | socketError
  | requestTimeout (rid : ℕ)
  | connectTimeout
  | heartbeatIntervalTick
deriving DecidableEq, Repr

/-- One step of the machine.  Socket events require a live socket
(listeners are removed by `cleanup()` in `onClose`); a request-timeout
event requires its timer to be armed and consumes it; the heartbeat tick
requires the interval timer to be installed. -/
def step (s : State) (e : Ev) : State × List Output :=
  match e with
  | .connectCall => ((connectCl s).1, [])
  | .send payload => sendCommand s payload
  | .socketOpened => if s.ws = WS.connectingWS then onOpen s else (s, [])
  | .socketMessage d => if s.ws ≠ WS.null then onMessage s d else (s, [])
  | .socketClosed => if s.ws ≠ WS.null then onClose s else (s, [])
  | .socketError => if s.ws ≠ WS.null then onError s else (s, [])
  | .requestTimeout rid =>
      match s.timers.find? (fun t => t.rid = rid) with
      | some t =>
          onRequestTimeout
            { s with timers := s.timers.filter (fun t' => t'.rid ≠ rid) } rid t.payload
      | none => (s, [])
  | .connectTimeout =>
      if s.connectPromise.isSome then onConnectTimeout s else (s, [])
  | .heartbeatIntervalTick =>
      if s.heartbeatTimer then heartbeatTick s else (s, [])

/-- The state of a freshly constructed client. -/
def initState (u : UserOpts) (rng : ℚ) : State :=
  { opts := mergeOpts u
    ws := WS.null
    status := .idle
    reconnectAttempt := 0
    connectPromise := none
    heartbeatTimer := false
    awaitingResponse := false
    manualClose := false
    queue := []
    timers := []
    nextRid := 0
    nextPid := 0
    sentLog := []
    rng := rng }

/-- Run a list of events, accumulating outputs. -/
def steps (s : State) : List Ev → State × List Output
  | [] => (s, [])
  | e :: es =>
      let so := step s e
      let rest := steps so.1 es
      (rest.1, so.2 ++ rest.2)

/-- Run a trace from a freshly constructed client. -/
def run (u : UserOpts) (rng : ℚ) (evs : List Ev) : State × List Output :=
  steps (initState u rng) evs

/-- Request ids currently in the queue, oldest first. -/
def queueRids (s : State) : List ℕ :=
  s.queue.map QueueItem.rid

/-- Number of requests whose payload has been written to the socket and
which are still pending (unanswered): the in-flight requests. -/
def inFlightCount (s : State) : ℕ :=
  (s.queue.filter (fun it => it.sent)).length

/-- The request ids of the payloads a list of outputs writes to the socket,
in order. -/
def wireRids (outs : List Output) : List ℕ :=
  outs.filterMap (fun o =>
    match o with
    | Output.sentPayload rid _ => some rid
    | _ => none)

/-- Heartbeat configurations the source disables: an explicit `0` (or any
non-positive value) or an explicit `null`/`undefined`.  We state the claim
for `0` and `null`. -/
def hbDisabled (o : Opts) : Prop :=
  o.heartbeatIntervalMs = some 0 ∨ o.heartbeatIntervalMs = none

/-- Whether an output is a promise rejection. -/
def isRejection : Output → Bool
  | Output.rejected _ _ => true
  | _ => false

/-- Options for concrete executions: heartbeat disabled via an explicit 0,
auto-reconnect off. -/
def uPlain : UserOpts :=
  { heartbeatIntervalMs := some (some 0), reconnect := some false }

/-- Options for concrete executions: heartbeat disabled via an explicit 0,
auto-reconnect left at its default (enabled). -/
def uRec : UserOpts :=
  { heartbeatIntervalMs := some (some 0) }

/-- The inductive invariant of the serial queue: request ids in the queue
are strictly increasing and below the fresh-id counter, the write history
is strictly increasing, stays below every still-unsent pending request, at
most the queue head has been written (everything in the tail is unsent), a
written head implies the in-flight flag, and armed timers carry the payload
of their request. -/
structure Inv (s : State) : Prop where
  pwQ : (queueRids s).Pairwise (· < ·)
  ridLt : ∀ it ∈ s.queue, it.rid < s.nextRid
  timerLt : ∀ t ∈ s.timers, t.rid < s.nextRid
  sentLt : ∀ r ∈ s.sentLog, r < s.nextRid
  sentLtUnsent : ∀ r ∈ s.sentLog, ∀ it ∈ s.queue, it.sent = false → r < it.rid
  pwSent : s.sentLog.Pairwise (· < ·)
  tailUnsent : ∀ it ∈ s.queue.tail, it.sent = false
  headSent : ∀ it, s.queue.head? = some it → it.sent = true → s.awaitingResponse = true
  agree : ∀ t ∈ s.timers, ∀ it ∈ s.queue, it.rid = t.rid → it.payload = t.payload

/-- Characterization of `flushQueue`: either it does nothing, or the socket
is open, nothing is in flight, and it writes the head payload. -/
theorem flushQueue_spec (s : State) :
    flushQueue s = (s, []) ∨
    ∃ front rest, s.queue = front :: rest ∧ s.ws = WS.openWS ∧
      s.awaitingResponse = false ∧
      flushQueue s =
        ({ s with
            awaitingResponse := true
            queue := { front with sent := true } :: rest
            sentLog := s.sentLog ++ [front.rid] },
          [Output.sentPayload front.rid front.payload]) := by
  by_cases h1 : s.ws = WS.openWS
  · cases h2 : s.awaitingResponse with
    | true => left; simp [flushQueue, h1, h2]
    | false =>
        cases hq : s.queue with
        | nil => left; simp [flushQueue, h1, h2, hq]
        | cons front rest =>
            right
            exact ⟨front, rest, rfl, h1, rfl, by simp [flushQueue, h1, h2, hq]⟩
  · left; simp [flushQueue, h1]

theorem flushQueue_inv {s : State} (h : Inv s) : Inv (flushQueue s).1 := by
  rcases flushQueue_spec s with heq | ⟨front, rest, hq, _, hawait, heq⟩
  · rw [heq]; exact h
  · have hfm : front ∈ s.queue := by rw [hq]; exact List.mem_cons_self _ _
    have hfs : front.sent = false := by
      cases hc : front.sent with
      | false => rfl
      | true =>
          have : s.awaitingResponse = true :=
            h.headSent front (by rw [hq]; rfl) hc
          rw [hawait] at this; exact absurd this (by simp)
    have hpw : front.rid :: rest.map QueueItem.rid = queueRids s := by
      simp [queueRids, hq]
    have hlt : ∀ b ∈ rest.map QueueItem.rid, front.rid < b := by
      have := h.pwQ
      rw [← hpw] at this
      exact (List.pairwise_cons.1 this).1
    rw [heq]
    constructor
    · show (({ front with sent := true } :: rest).map QueueItem.rid).Pairwise (· < ·)
      simpa [hpw] using h.pwQ
    · intro it hit
      rcases List.mem_cons.1 hit with rfl | hit
      · exact h.ridLt front hfm
      · exact h.ridLt it (by rw [hq]; exact List.mem_cons_of_mem _ hit)
    · exact h.timerLt
    · intro r hr
      rcases List.mem_append.1 hr with hr | hr
      · exact h.sentLt r hr
      · rw [List.mem_singleton.1 hr]; exact h.ridLt front hfm
    · intro r hr it hit hsent
      rcases List.mem_cons.1 hit with rfl | hit
      · simp at hsent
      · rcases List.mem_append.1 hr with hr | hr
        · exact h.sentLtUnsent r hr it (by rw [hq]; exact List.mem_cons_of_mem _ hit) hsent
        · rw [List.mem_singleton.1 hr]
          exact hlt it.rid (List.mem_map_of_mem _ hit)
    · refine List.pairwise_append.2 ⟨h.pwSent, List.pairwise_singleton _ _, ?_⟩
      intro a ha b hb
      rw [List.mem_singleton.1 hb]
      exact h.sentLtUnsent a ha front hfm hfs
    · intro it hit
      exact h.tailUnsent it (by rw [hq]; exact hit)
    · intro it _ _; rfl
    · intro t ht it hit hrid
      rcases List.mem_cons.1 hit with rfl | hit
      · exact h.agree t ht front hfm hrid
      · exact h.agree t ht it (by rw [hq]; exact List.mem_cons_of_mem _ hit) hrid

theorem sendCommand_inv {s : State} (h : Inv s) (p : String) :
    Inv (sendCommand s p).1 := by
  refine flushQueue_inv ?_
  constructor
  · show ((s.queue ++ [({ rid := s.nextRid, payload := p, sent := false } : QueueItem)]).map
      QueueItem.rid).Pairwise (· < ·)
    rw [List.map_append]
    refine List.pairwise_append.2 ⟨h.pwQ, List.pairwise_singleton _ _, ?_⟩
    intro a ha b hb
    simp only [List.map_cons, List.map_nil, List.mem_singleton] at hb
    subst hb
    rcases List.mem_map.1 ha with ⟨it, hit, rfl⟩
    exact h.ridLt it hit
  · intro it hit
    rcases List.mem_append.1 hit with hit | hit
    · exact Nat.lt_succ_of_lt (h.ridLt it hit)
    · rw [List.mem_singleton.1 hit]; exact Nat.lt_succ_self _
  · intro t ht
    rcases List.mem_append.1 ht with ht | ht
    · exact Nat.lt_succ_of_lt (h.timerLt t ht)
    · rw [List.mem_singleton.1 ht]; exact Nat.lt_succ_self _
  · intro r hr
    exact Nat.lt_succ_of_lt (h.sentLt r hr)
  · intro r hr it hit hsent
    rcases List.mem_append.1 hit with hit | hit
    · exact h.sentLtUnsent r hr it hit hsent
    · rw [List.mem_singleton.1 hit]
      exact h.sentLt r hr
  · exact h.pwSent
  · intro it hit
    cases hq : s.queue with
    | nil => rw [hq] at hit; simp at hit
    | cons a l =>
        rw [hq] at hit
        simp only [List.cons_append, List.tail_cons] at hit
        rcases List.mem_append.1 hit with hit | hit
        · exact h.tailUnsent it (by rw [hq]; exact hit)
        · rw [List.mem_singleton.1 hit]
  · intro it hhd hsent
    cases hq : s.queue with
    | nil =>
        rw [hq] at hhd
        simp only [List.nil_append, List.head?_cons, Option.some.injEq] at hhd
        subst hhd
        simp at hsent
    | cons a l =>
        rw [hq] at hhd
        simp only [List.cons_append, List.head?_cons, Option.some.injEq] at hhd
        subst hhd
        exact h.headSent _ (by rw [hq]; rfl) hsent
  · intro t ht it hit hrid
    rcases List.mem_append.1 ht with ht | ht
    · rcases List.mem_append.1 hit with hit | hit
      · exact h.agree t ht it hit hrid
      · rw [List.mem_singleton.1 hit] at hrid ⊢
        exact absurd (hrid ▸ h.timerLt t ht) (by simp)
    · rcases List.mem_append.1 hit with hit | hit
      · rw [List.mem_singleton.1 ht] at hrid
        exact absurd (hrid ▸ h.ridLt it hit) (by simp)
      · rw [List.mem_singleton.1 ht, List.mem_singleton.1 hit]

/-- Popping the queue head (reply arrival or matching timeout) preserves
the invariant, for any sub-multiset of the timers. -/
theorem pop_inv {s : State} (h : Inv s) {front : QueueItem} {rest : List QueueItem}
    (hq : s.queue = front :: rest) (tl : List ReqTimer)
    (htl : ∀ t ∈ tl, t ∈ s.timers) :
    Inv { s with awaitingResponse := false, queue := rest, timers := tl } := by
  have hmem : ∀ it ∈ rest, it ∈ s.queue := by
    intro it hit; rw [hq]; exact List.mem_cons_of_mem _ hit
  have hunsent : ∀ it ∈ rest, it.sent = false := by
    intro it hit
    exact h.tailUnsent it (by rw [hq]; exact hit)
  constructor
  · show (rest.map QueueItem.rid).Pairwise (· < ·)
    have hp := h.pwQ
    rw [queueRids, hq] at hp
    exact (List.pairwise_cons.1 hp).2
  · intro it hit; exact h.ridLt it (hmem it hit)
  · intro t ht; exact h.timerLt t (htl t ht)
  · exact h.sentLt
  · intro r hr it hit hs; exact h.sentLtUnsent r hr it (hmem it hit) hs
  · exact h.pwSent
  · intro it hit
    exact hunsent it (List.mem_of_mem_tail hit)
  · intro it hhd hs
    cases rest with
    | nil => simp at hhd
    | cons b l =>
        simp only [List.head?_cons, Option.some.injEq] at hhd
        subst hhd
        have hb := hunsent _ (List.mem_cons_self _ _)
        rw [hb] at hs
        exact absurd hs (by simp)
  · intro t ht it hit hr; exact h.agree t (htl t ht) it (hmem it hit) hr

theorem onMessage_inv {s : State} (h : Inv s) (d : String) : Inv (onMessage s d).1 := by
  cases hq : s.queue with
  | nil =>
      simp only [onMessage, hq]
      refine flushQueue_inv ?_
      constructor
      · simp [queueRids]
      · simp
      · exact h.timerLt
      · exact h.sentLt
      · simp
      · exact h.pwSent
      · simp
      · intro it hhd; simp at hhd
      · simp
  | cons front rest =>
      simp only [onMessage, hq]
      exact flushQueue_inv (pop_inv h hq _ (fun _ ht => List.mem_of_mem_filter ht))

theorem maybeReconnect_inv {s : State} (h : Inv s) : Inv (maybeReconnectOnTimeout s) := by
  unfold maybeReconnectOnTimeout
  split
  · exact ⟨h.pwQ, h.ridLt, h.timerLt, h.sentLt, h.sentLtUnsent, h.pwSent, h.tailUnsent,
      h.headSent, h.agree⟩
  · exact h

theorem onRequestTimeout_inv {s : State} (h : Inv s) (rid : ℕ) (payload : String) :
    Inv (onRequestTimeout s rid payload).1 := by
  unfold onRequestTimeout
  cases hq : s.queue with
  | nil =>
      simp only [hq]
      exact maybeReconnect_inv h
  | cons front rest =>
      simp only [hq]
      by_cases hp : front.payload = payload
      · rw [if_pos hp]
        exact maybeReconnect_inv (pop_inv h hq _ (fun _ ht => ht))
      · rw [if_neg hp]
        exact maybeReconnect_inv h

theorem scheduleReconnect_inv {s : State} (h : Inv s) : Inv (scheduleReconnect s).1 :=
  ⟨h.pwQ, h.ridLt, h.timerLt, h.sentLt, h.sentLtUnsent, h.pwSent, h.tailUnsent,
    h.headSent, h.agree⟩

theorem onClose_inv {s : State} (h : Inv s) : Inv (onClose s).1 := by
  have h1 : Inv { s with
      status := Status.closed
      heartbeatTimer := false
      queue := []
      timers := s.timers.filter (fun t => ¬ (s.queue.map QueueItem.rid).contains t.rid)
      ws := WS.null
      connectPromise := none } := by
    constructor
    · simp [queueRids]
    · simp
    · intro t ht; exact h.timerLt t (List.mem_of_mem_filter ht)
    · exact h.sentLt
    · simp
    · exact h.pwSent
    · simp
    · intro it hhd; simp at hhd
    · simp
  unfold onClose
  split
  · exact scheduleReconnect_inv h1
  · exact h1

theorem startHeartbeat_inv {s : State} (h : Inv s) : Inv (startHeartbeat s) := by
  unfold startHeartbeat
  split
  · exact h
  · split
    · exact h
    · exact ⟨h.pwQ, h.ridLt, h.timerLt, h.sentLt, h.sentLtUnsent, h.pwSent, h.tailUnsent,
        h.headSent, h.agree⟩

theorem onOpen_inv {s : State} (h : Inv s) : Inv (onOpen s).1 := by
  have h1 : Inv { s with status := Status.openSt, ws := WS.openWS, reconnectAttempt := 0 } :=
    ⟨h.pwQ, h.ridLt, h.timerLt, h.sentLt, h.sentLtUnsent, h.pwSent, h.tailUnsent,
      h.headSent, h.agree⟩
  have h2 := startHeartbeat_inv (flushQueue_inv h1)
  exact ⟨h2.pwQ, h2.ridLt, h2.timerLt, h2.sentLt, h2.sentLtUnsent, h2.pwSent, h2.tailUnsent,
    h2.headSent, h2.agree⟩

theorem connectCl_inv {s : State} (h : Inv s) : Inv (connectCl s).1 := by
  unfold connectCl
  split
  · exact h
  · split
    · exact h
    · exact ⟨h.pwQ, h.ridLt, h.timerLt, h.sentLt, h.sentLtUnsent, h.pwSent, h.tailUnsent,
        h.headSent, h.agree⟩

theorem onConnectTimeout_inv {s : State} (h : Inv s) : Inv (onConnectTimeout s).1 := by
  unfold onConnectTimeout
  split
  · exact ⟨h.pwQ, h.ridLt, h.timerLt, h.sentLt, h.sentLtUnsent, h.pwSent, h.tailUnsent,
      h.headSent, h.agree⟩
  · exact h

theorem heartbeatTick_inv {s : State} (h : Inv s) : Inv (heartbeatTick s).1 := by
  unfold heartbeatTick
  split
  · exact h
  · exact sendCommand_inv h "network"

theorem step_inv {s : State} (h : Inv s) (e : Ev) : Inv (step s e).1 := by
  cases e with
  | connectCall => exact connectCl_inv h
  | send payload => exact sendCommand_inv h payload
  | socketOpened =>
      simp only [step]
      split
      · exact onOpen_inv h
      · exact h
  | socketMessage d =>
      simp only [step]
      split
      · exact onMessage_inv h d
      · exact h
  | socketClosed =>
      simp only [step]
      split
      · exact onClose_inv h
      · exact h
  | socketError =>
      simp only [step]
      split
      · exact h
      · exact h
  | requestTimeout rid =>
      simp only [step]
      cases hf : s.timers.find? (fun t => t.rid = rid) with
      | none => exact h
      | some t =>
          refine onRequestTimeout_inv ?_ rid t.payload
          exact ⟨h.pwQ, h.ridLt, fun t' ht' => h.timerLt t' (List.mem_of_mem_filter ht'),
            h.sentLt, h.sentLtUnsent, h.pwSent, h.tailUnsent, h.headSent,
            fun t' ht' => h.agree t' (List.mem_of_mem_filter ht')⟩
  | connectTimeout =>
      simp only [step]
      split
      · exact onConnectTimeout_inv h
      · exact h
  | heartbeatIntervalTick =>
      simp only [step]
      split
      · exact heartbeatTick_inv h
      · exact h

theorem steps_inv {s : State} (h : Inv s) (evs : List Ev) : Inv (steps s evs).1 := by
  induction evs generalizing s with
  | nil => exact h
  | cons e es ih => exact ih (step_inv h e)

theorem initState_inv (u : UserOpts) (rng : ℚ) : Inv (initState u rng) := by
  constructor <;> simp [initState, queueRids]

theorem run_inv (u : UserOpts) (rng : ℚ) (evs : List Ev) : Inv (run u rng evs).1 :=
  steps_inv (initState_inv u rng) evs

/-- The single-flight bound follows from the invariant: at most the queue
head has been written. -/
theorem inFlightCount_le_one {s : State} (h : Inv s) : inFlightCount s ≤ 1 := by
  unfold inFlightCount
  cases hq : s.queue with
  | nil => simp
  | cons front rest =>
      have hrest : rest.filter (fun it => it.sent) = [] := by
        refine List.filter_eq_nil_iff.2 ?_
        intro it hit
        simp [h.tailUnsent it (by rw [hq]; exact hit)]
      cases hsf : front.sent with
      | true => simp [List.filter_cons, hsf, hrest]
      | false => simp [List.filter_cons, hsf, hrest]

/-- Fields of the state that `flushQueue` never changes, and the queue ids
it preserves. -/
theorem flushQueue_frame (s : State) :
    (flushQueue s).1.opts = s.opts ∧ (flushQueue s).1.nextRid = s.nextRid ∧
    (flushQueue s).1.reconnectAttempt = s.reconnectAttempt ∧
    (flushQueue s).1.heartbeatTimer = s.heartbeatTimer ∧
    (flushQueue s).1.ws = s.ws ∧ (flushQueue s).1.status = s.status ∧
    (flushQueue s).1.connectPromise = s.connectPromise ∧
    (flushQueue s).1.timers = s.timers ∧
    queueRids (flushQueue s).1 = queueRids s ∧
    (flushQueue s).1.nextPid = s.nextPid ∧
    (flushQueue s).1.manualClose = s.manualClose ∧
    (flushQueue s).1.rng = s.rng := by
  rcases flushQueue_spec s with heq | ⟨front, rest, hq, _, _, heq⟩
  · rw [heq]; simp [queueRids]
  · rw [heq]; simp [queueRids, hq]

theorem wireRids_append (a b : List Output) :
    wireRids (a ++ b) = wireRids a ++ wireRids b := by
  simp [wireRids]

theorem flushQueue_sentLog (s : State) :
    (flushQueue s).1.sentLog = s.sentLog ++ wireRids (flushQueue s).2 := by
  rcases flushQueue_spec s with heq | ⟨front, rest, _, _, _, heq⟩ <;>
    rw [heq] <;> simp [wireRids]

theorem drainOutputs_eq_map (l : List QueueItem) :
    drainOutputs l = l.map (fun it => Output.rejected it.rid RejReason.connectionClosed) := by
  induction l with
  | nil => rfl
  | cons it rest ih => simp [drainOutputs, ih]

theorem wireRids_drain (l : List QueueItem) : wireRids (drainOutputs l) = [] := by
  rw [drainOutputs_eq_map]
  induction l with
  | nil => rfl
  | cons it rest ih => simpa [wireRids] using ih

theorem wireRids_cons_emitClose (l : List Output) :
    wireRids (Output.emitClose :: l) = wireRids l := by
  simp [wireRids]

theorem wireRids_append_emitReconnecting (l : List Output) (a : ℕ) (d : ℤ) :
    wireRids (l ++ [Output.emitReconnecting a d]) = wireRids l := by
  simp [wireRids]

theorem step_sentLog (s : State) (e : Ev) :
    (step s e).1.sentLog = s.sentLog ++ wireRids (step s e).2 := by
  cases e with
  | connectCall =>
      simp only [step, connectCl]
      split
      · simp [wireRids]
      · split <;> simp [wireRids]
  | send payload =>
      simp only [step, sendCommand]
      rw [flushQueue_sentLog]
  | socketOpened =>
      simp only [step]
      split
      · simp only [onOpen, startHeartbeat]
        have hf := flushQueue_sentLog
          { s with status := Status.openSt, ws := WS.openWS, reconnectAttempt := 0 }
        split
        · simpa [wireRids] using hf
        · split <;> simpa [wireRids] using hf
      · simp [wireRids]
  | socketMessage d =>
      simp only [step]
      split
      · cases hq : s.queue with
        | nil =>
            simp only [onMessage, hq]
            have hf := flushQueue_sentLog { s with awaitingResponse := false }
            rw [hq] at hf
            simpa [wireRids] using hf
        | cons front rest =>
            simp only [onMessage, hq]
            have hf := flushQueue_sentLog { s with
              awaitingResponse := false
              queue := rest
              timers := s.timers.filter (fun t => t.rid ≠ front.rid) }
            simpa [wireRids] using hf
      · simp [wireRids]
  | socketClosed =>
      simp only [step]
      split
      · simp only [onClose, scheduleReconnect]
        split
        · simp [wireRids_cons_emitClose, wireRids_append_emitReconnecting, wireRids_drain]
        · simp [wireRids_cons_emitClose, wireRids_drain]
      · simp [wireRids]
  | socketError =>
      simp only [step]
      split <;> simp [onError, wireRids]
  | requestTimeout rid =>
      simp only [step]
      cases hf : s.timers.find? (fun t => t.rid = rid) with
      | none => simp [wireRids]
      | some t =>
          simp only [onRequestTimeout, maybeReconnectOnTimeout]
          repeat' split
          all_goals simp [wireRids]
  | connectTimeout =>
      simp only [step]
      split
      · simp only [onConnectTimeout]
        split <;> simp [wireRids]
      · simp [wireRids]
  | heartbeatIntervalTick =>
      simp only [step]
      split
      · simp only [heartbeatTick]
        split
        · simp [wireRids]
        · simp only [sendCommand]
          rw [flushQueue_sentLog]
      · simp [wireRids]

theorem steps_sentLog (s : State) (evs : List Ev) :
    (steps s evs).1.sentLog = s.sentLog ++ wireRids (steps s evs).2 := by
  induction evs generalizing s with
  | nil => simp [steps, wireRids]
  | cons e es ih =>
      show (steps (step s e).1 es).1.sentLog = _
      rw [ih, step_sentLog]
      simp [steps, wireRids_append]

/-- `startHeartbeat` changes at most the heartbeat-timer field. -/
theorem startHeartbeat_frame (s : State) :
    startHeartbeat s = { s with heartbeatTimer := (startHeartbeat s).heartbeatTimer } := by
  unfold startHeartbeat
  repeat' split
  all_goals rfl

theorem startHeartbeat_disabled {s : State} (hd : hbDisabled s.opts) :
    startHeartbeat s = s := by
  unfold startHeartbeat
  rcases hd with hd | hd <;> rw [hd] <;> simp

theorem onOpen_rid_fields (s : State) :
    (onOpen s).1.nextRid = s.nextRid ∧ queueRids (onOpen s).1 = queueRids s := by
  obtain ⟨-, hn, -, -, -, -, -, -, hq, -⟩ := flushQueue_frame
    { s with status := Status.openSt, ws := WS.openWS, reconnectAttempt := 0 }
  constructor
  · show (startHeartbeat (flushQueue { s with status := Status.openSt, ws := WS.openWS, reconnectAttempt := 0 }).1).nextRid = s.nextRid
    rw [startHeartbeat_frame]
    exact hn
  · show queueRids { startHeartbeat (flushQueue { s with status := Status.openSt, ws := WS.openWS, reconnectAttempt := 0 }).1 with connectPromise := none } = queueRids s
    rw [startHeartbeat_frame]
    exact hq

theorem onOpen_hb_off {s : State} (hd : hbDisabled s.opts) (h : s.heartbeatTimer = false) :
    (onOpen s).1.opts = s.opts ∧ (onOpen s).1.heartbeatTimer = false := by
  obtain ⟨ho, -, -, hhb, -⟩ := flushQueue_frame
    { s with status := Status.openSt, ws := WS.openWS, reconnectAttempt := 0 }
  have hd1 : hbDisabled (flushQueue { s with status := Status.openSt, ws := WS.openWS, reconnectAttempt := 0 }).1.opts := by
    rw [ho]; exact hd
  constructor
  · show (startHeartbeat (flushQueue { s with status := Status.openSt, ws := WS.openWS, reconnectAttempt := 0 }).1).opts = s.opts
    rw [startHeartbeat_disabled hd1]
    exact ho
  · show (startHeartbeat (flushQueue { s with status := Status.openSt, ws := WS.openWS, reconnectAttempt := 0 }).1).heartbeatTimer = false
    rw [startHeartbeat_disabled hd1, hhb]
    exact h

theorem sendCommand_fields (s : State) (p : String) :
    queueRids (sendCommand s p).1 = queueRids s ++ [s.nextRid] ∧
    (sendCommand s p).1.nextRid = s.nextRid + 1 ∧
    (sendCommand s p).1.opts = s.opts ∧
    (sendCommand s p).1.heartbeatTimer = s.heartbeatTimer := by
  unfold sendCommand
  obtain ⟨ho, hn, -, hhb, -, -, -, -, hq, -⟩ := flushQueue_frame
    { s with
      nextRid := s.nextRid + 1
      timers := s.timers ++ [{ rid := s.nextRid, payload := p }]
      queue := s.queue ++ [{ rid := s.nextRid, payload := p, sent := false }] }
  refine ⟨?_, ?_, ?_, ?_⟩
  · rw [hq]; simp [queueRids]
  · rw [hn]
  · rw [ho]
  · rw [hhb]

/-- A request id below the fresh-id counter that is no longer in the queue
can never re-enter it: new queue entries always get a strictly larger id. -/
theorem step_rid_gone {s : State} {rid : ℕ} (e : Ev) (hlt : rid < s.nextRid)
    (hout : rid ∉ queueRids s) :
    rid < (step s e).1.nextRid ∧ rid ∉ queueRids (step s e).1 := by
  cases e with
  | connectCall =>
      simp only [step, connectCl]
      repeat' split
      all_goals exact ⟨hlt, hout⟩
  | send payload =>
      obtain ⟨hq, hn, -, -⟩ := sendCommand_fields s payload
      simp only [step]
      refine ⟨by rw [hn]; exact Nat.lt_succ_of_lt hlt, ?_⟩
      rw [hq]
      intro hmem
      rcases List.mem_append.1 hmem with hmem | hmem
      · exact hout hmem
      · rw [List.mem_singleton.1 hmem] at hlt
        exact absurd hlt (by simp)
  | socketOpened =>
      simp only [step]
      split
      · obtain ⟨hn, hq⟩ := onOpen_rid_fields s
        exact ⟨by rw [hn]; exact hlt, by rw [hq]; exact hout⟩
      · exact ⟨hlt, hout⟩
  | socketMessage d =>
      simp only [step]
      split
      · cases hqe : s.queue with
        | nil =>
            simp only [onMessage, hqe]
            obtain ⟨-, hn, -, -, -, -, -, -, hq, -⟩ := flushQueue_frame
              { s with awaitingResponse := false, queue := [] }
            refine ⟨by rw [hn]; exact hlt, ?_⟩
            rw [hq]
            simp [queueRids]
        | cons front rest =>
            simp only [onMessage, hqe]
            obtain ⟨-, hn, -, -, -, -, -, -, hq, -⟩ := flushQueue_frame
              { s with
                awaitingResponse := false
                queue := rest
                timers := s.timers.filter (fun t => t.rid ≠ front.rid) }
            refine ⟨by rw [hn]; exact hlt, ?_⟩
            rw [hq]
            simp only [queueRids]
            intro hmem
            refine hout ?_
            show rid ∈ s.queue.map QueueItem.rid
            rw [hqe]
            exact List.mem_cons_of_mem _ hmem
      · exact ⟨hlt, hout⟩
  | socketClosed =>
      simp only [step]
      split
      · simp only [onClose, scheduleReconnect]
        split
        · exact ⟨hlt, by simp [queueRids]⟩
        · exact ⟨hlt, by simp [queueRids]⟩
      · exact ⟨hlt, hout⟩
  | socketError =>
      simp only [step]
      split
      · exact ⟨hlt, hout⟩
      · exact ⟨hlt, hout⟩
  | requestTimeout r =>
      simp only [step]
      cases hf : s.timers.find? (fun t => t.rid = r) with
      | none => exact ⟨hlt, hout⟩
      | some t =>
          cases hqe : s.queue with
          | nil =>
              simp only [onRequestTimeout, maybeReconnectOnTimeout, hqe]
              split
              · exact ⟨hlt, by simp [queueRids]⟩
              · exact ⟨hlt, by simp [queueRids]⟩
          | cons front rest =>
              have hrest : rid ∉ rest.map QueueItem.rid := by
                intro hmem
                refine hout ?_
                show rid ∈ s.queue.map QueueItem.rid
                rw [hqe]
                exact List.mem_cons_of_mem _ hmem
              have hall : rid ∉ (front :: rest).map QueueItem.rid := by
                rw [← hqe]
                exact hout
              simp only [onRequestTimeout, maybeReconnectOnTimeout, hqe]
              split
              · split
                · exact ⟨hlt, hrest⟩
                · exact ⟨hlt, hrest⟩
              · split
                · exact ⟨hlt, hall⟩
                · exact ⟨hlt, hall⟩
  | connectTimeout =>
      simp only [step, onConnectTimeout]
      repeat' split
      all_goals exact ⟨hlt, hout⟩
  | heartbeatIntervalTick =>
      simp only [step]
      split
      · unfold heartbeatTick
        split
        · exact ⟨hlt, hout⟩
        · obtain ⟨hq, hn, -, -⟩ := sendCommand_fields s "network"
          refine ⟨by rw [hn]; exact Nat.lt_succ_of_lt hlt, ?_⟩
          rw [hq]
          intro hmem
          rcases List.mem_append.1 hmem with hmem | hmem
          · exact hout hmem
          · rw [List.mem_singleton.1 hmem] at hlt
            exact absurd hlt (by simp)
      · exact ⟨hlt, hout⟩

theorem steps_rid_gone {s : State} {rid : ℕ} (evs : List Ev) (hlt : rid < s.nextRid)
    (hout : rid ∉ queueRids s) : rid ∉ queueRids (steps s evs).1 := by
  induction evs generalizing s with
  | nil => exact hout
  | cons e es ih =>
      obtain ⟨hlt1, hout1⟩ := step_rid_gone e hlt hout
      exact ih hlt1 hout1

/-- With the heartbeat disabled by configuration, no step installs the
interval timer (and the configuration itself never changes). -/
theorem step_hb_off {s : State} (e : Ev) (hd : hbDisabled s.opts)
    (h : s.heartbeatTimer = false) :
    (step s e).1.opts = s.opts ∧ (step s e).1.heartbeatTimer = false := by
  cases e with
  | connectCall =>
      simp only [step, connectCl]
      repeat' split
      all_goals exact ⟨rfl, h⟩
  | send payload =>
      obtain ⟨-, -, ho, hhb⟩ := sendCommand_fields s payload
      simp only [step]
      exact ⟨ho, by rw [hhb]; exact h⟩
  | socketOpened =>
      simp only [step]
      split
      · exact onOpen_hb_off hd h
      · exact ⟨rfl, h⟩
  | socketMessage d =>
      simp only [step]
      split
      · cases hqe : s.queue with
        | nil =>
            simp only [onMessage, hqe]
            obtain ⟨ho, -, -, hhb, -⟩ := flushQueue_frame
              { s with awaitingResponse := false, queue := [] }
            exact ⟨ho, by rw [hhb]; exact h⟩
        | cons front rest =>
            simp only [onMessage, hqe]
            obtain ⟨ho, -, -, hhb, -⟩ := flushQueue_frame
              { s with
                awaitingResponse := false
                queue := rest
                timers := s.timers.filter (fun t => t.rid ≠ front.rid) }
            exact ⟨ho, by rw [hhb]; exact h⟩
      · exact ⟨rfl, h⟩
  | socketClosed =>
      simp only [step]
      split
      · simp only [onClose, scheduleReconnect]
        split
        · exact ⟨rfl, rfl⟩
        · exact ⟨rfl, rfl⟩
      · exact ⟨rfl, h⟩
  | socketError =>
      simp only [step]
      split
      · exact ⟨rfl, h⟩
      · exact ⟨rfl, h⟩
  | requestTimeout r =>
      simp only [step]
      cases hf : s.timers.find? (fun t => t.rid = r) with
      | none => exact ⟨rfl, h⟩
      | some t =>
          simp only [onRequestTimeout, maybeReconnectOnTimeout]
          repeat' split
          all_goals exact ⟨rfl, h⟩
  | connectTimeout =>
      simp only [step, onConnectTimeout]
      repeat' split
      all_goals exact ⟨rfl, h⟩
  | heartbeatIntervalTick =>
      simp only [step]
      split
      · unfold heartbeatTick
        split
        · exact ⟨rfl, h⟩
        · obtain ⟨-, -, ho, hhb⟩ := sendCommand_fields s "network"
          exact ⟨ho, by rw [hhb]; exact h⟩
      · exact ⟨rfl, h⟩

theorem steps_hb_off {s : State} (evs : List Ev) (hd : hbDisabled s.opts)
    (h : s.heartbeatTimer = false) :
    (steps s evs).1.opts = s.opts ∧ (steps s evs).1.heartbeatTimer = false := by
  induction evs generalizing s with
  | nil => exact ⟨rfl, h⟩
  | cons e es ih =>
      obtain ⟨ho, hh⟩ := step_hb_off e hd h
      obtain ⟨ho2, hh2⟩ := ih (ho ▸ hd) hh
      refine ⟨?_, ?_⟩
      · show (steps (step s e).1 es).1.opts = s.opts
        rw [ho2, ho]
      · show (steps (step s e).1 es).1.heartbeatTimer = false
        exact hh2

/-- Characterization of a request-timeout step with an armed timer: the
request's promise is rejected with the timeout error, and the queue head is
shifted (clearing the in-flight flag) exactly when its payload equals the
payload captured by the firing timer. -/
theorem timeoutStep_spec {s : State} {rid : ℕ} {t : ReqTimer}
    (hfind : s.timers.find? (fun tm => tm.rid = rid) = some t) :
    (step s (Ev.requestTimeout rid)).2 =
      [Output.rejected rid (RejReason.timedOut s.opts.requestTimeoutMs)] ∧
    (step s (Ev.requestTimeout rid)).1.nextRid = s.nextRid ∧
    ((∃ front rest, s.queue = front :: rest ∧ front.payload = t.payload ∧
        (step s (Ev.requestTimeout rid)).1.queue = rest ∧
        (step s (Ev.requestTimeout rid)).1.awaitingResponse = false) ∨
      ((step s (Ev.requestTimeout rid)).1.queue = s.queue ∧
        (step s (Ev.requestTimeout rid)).1.awaitingResponse = s.awaitingResponse ∧
        ∀ front rest, s.queue = front :: rest → front.payload ≠ t.payload)) := by
  cases hq : s.queue with
  | nil =>
      simp only [step, hfind, onRequestTimeout, maybeReconnectOnTimeout, hq]
      refine ⟨by first | trivial | (split <;> rfl), by first | trivial | (split <;> rfl),
        Or.inr ?_⟩
      refine ⟨by first | trivial | (split <;> rfl), by first | trivial | (split <;> rfl), ?_⟩
      intro front rest hcon
      exact absurd hcon (by simp)
  | cons front rest =>
      by_cases hp : front.payload = t.payload
      · simp only [step, hfind, onRequestTimeout, maybeReconnectOnTimeout, hq, if_pos hp]
        refine ⟨by first | trivial | (split <;> rfl), by first | trivial | (split <;> rfl),
          Or.inl ?_⟩
        exact ⟨front, rest, rfl, hp, by first | trivial | (split <;> rfl),
          by first | trivial | (split <;> rfl)⟩
      · simp only [step, hfind, onRequestTimeout, maybeReconnectOnTimeout, hq, if_neg hp]
        refine ⟨by first | trivial | (split <;> rfl), by first | trivial | (split <;> rfl),
          Or.inr ?_⟩
        refine ⟨by first | trivial | (split <;> rfl), by first | trivial | (split <;> rfl), ?_⟩
        intro front' rest' hcon
        rw [List.cons.injEq] at hcon
        rw [← hcon.1]
        exact hp

/-- When the queue was empty, the only payload a `sendCommand` step can
write is the command just enqueued. -/
theorem sendCommand_out_mem {s : State} {p q : String} {rid : ℕ}
    (hq : s.queue = []) (hmem : Output.sentPayload rid q ∈ (sendCommand s p).2) :
    q = p := by
  simp only [sendCommand] at hmem
  rcases flushQueue_spec { s with
      nextRid := s.nextRid + 1
      timers := s.timers ++ [{ rid := s.nextRid, payload := p }]
      queue := s.queue ++ [{ rid := s.nextRid, payload := p, sent := false }] }
    with heq | ⟨front, rest, hqq, _, _, heq⟩
  · rw [heq] at hmem
    simp at hmem
  · rw [heq] at hmem
    simp only [List.mem_singleton, Output.sentPayload.injEq] at hmem
    have h2 : s.queue ++ [({ rid := s.nextRid, payload := p, sent := false } : QueueItem)]
        = front :: rest := hqq
    rw [hq] at h2
    simp only [List.nil_append, List.cons.injEq] at h2
    rw [hmem.2, ← h2.1]

/-- C1: Single-flight FIFO serialization.  Along every event trace: the
wire write history (request ids, assigned in enqueue order) is strictly
increasing, so payloads reach the socket in exactly enqueue order and no
request is written twice; the ghost history equals the actual send outputs
of the trace; at most one request is in flight at any instant; and every
incoming reply resolves the oldest still-pending request (the queue head). -/
theorem c1_single_flight_fifo (u : UserOpts) (rng : ℚ) (evs : List Ev) :
    (run u rng evs).1.sentLog.Pairwise (· < ·) ∧
    (run u rng evs).1.sentLog = wireRids (run u rng evs).2 ∧
    inFlightCount (run u rng evs).1 ≤ 1 ∧
    (∀ (s : State) (d : String) (front : QueueItem) (rest : List QueueItem),
      s.ws ≠ WS.null → s.queue = front :: rest →
      ((step s (Ev.socketMessage d)).2).head? = some (Output.resolved front.rid d)) := by
  refine ⟨(run_inv u rng evs).pwSent, ?_, inFlightCount_le_one (run_inv u rng evs), ?_⟩
  · have h := steps_sentLog (initState u rng) evs
    simpa [initState] using h
  · intro s d front rest hws hq
    simp only [step, if_pos hws, onMessage, hq]
    rfl

/-- C1 applied to a concrete run: two commands enqueued back to back, then
a reply; the single-flight bound holds and the reply resolves the first
request. -/
theorem c1_witness :
    inFlightCount (run uPlain 0
      [Ev.connectCall, Ev.socketOpened, Ev.send "network", Ev.send "tokens"]).1 ≤ 1 ∧
    ((step (run uPlain 0
        [Ev.connectCall, Ev.socketOpened, Ev.send "network", Ev.send "tokens"]).1
      (Ev.socketMessage "r")).2).head? = some (Output.resolved 0 "r") := by
  have h := c1_single_flight_fifo uPlain 0
    [Ev.connectCall, Ev.socketOpened, Ev.send "network", Ev.send "tokens"]
  refine ⟨h.2.2.1, ?_⟩
  exact h.2.2.2 _ "r" { rid := 0, payload := "network", sent := true }
    [{ rid := 1, payload := "tokens", sent := false }] (by decide) rfl

/-- C2: Request timeout.  For a timeout firing with an armed timer: the
request's completion is failed with the `timed out after N ms` error (N the
configured `requestTimeoutMs`); the timed-out request is removed (and the
in-flight flag cleared) exactly when it still occupies the queue head; and
once removed it can never re-enter the queue, so it is removed exactly
once. -/
theorem c2_request_timeout {s : State} {rid : ℕ} {t : ReqTimer} (h : Inv s)
    (hfind : s.timers.find? (fun tm => tm.rid = rid) = some t) :
    Output.rejected rid (RejReason.timedOut s.opts.requestTimeoutMs)
      ∈ (step s (Ev.requestTimeout rid)).2 ∧
    errorMessage (RejReason.timedOut s.opts.requestTimeoutMs) =
      "Request timed out after " ++ toString s.opts.requestTimeoutMs ++ " ms" ∧
    ((rid ∈ queueRids s ∧ rid ∉ queueRids (step s (Ev.requestTimeout rid)).1 ∧
        (step s (Ev.requestTimeout rid)).1.awaitingResponse = false) ↔
      (∃ front rest, s.queue = front :: rest ∧ front.rid = rid)) ∧
    (∀ evs, rid ∉ queueRids (step s (Ev.requestTimeout rid)).1 →
      rid ∉ queueRids (steps (step s (Ev.requestTimeout rid)).1 evs).1) := by
  have htmem : t ∈ s.timers := List.mem_of_find?_eq_some hfind
  have htrid : t.rid = rid := by
    have := List.find?_some hfind
    simpa using this
  obtain ⟨hout, hnext, hcase⟩ := timeoutStep_spec hfind
  refine ⟨by rw [hout]; exact List.mem_singleton.2 rfl, rfl, ?_, ?_⟩
  · constructor
    · rintro ⟨hin, hnotin, -⟩
      rcases hcase with ⟨front, rest, hq, -, hq', -⟩ | ⟨hq', -, -⟩
      · refine ⟨front, rest, hq, ?_⟩
        rw [queueRids, hq] at hin
        simp only [List.map_cons, List.mem_cons] at hin
        rcases hin with hin | hin
        · exact hin.symm
        · exact absurd (by rw [queueRids, hq']; exact hin) hnotin
      · exact absurd (by rw [queueRids, hq']; exact hin) hnotin
    · rintro ⟨front, rest, hq, hrid⟩
      have hpay : front.payload = t.payload :=
        h.agree t htmem front (by rw [hq]; exact List.mem_cons_self _ _)
          (by rw [hrid, htrid])
      rcases hcase with ⟨front', rest', hq2, -, hq', ha'⟩ | ⟨-, -, hno⟩
      · have hff : front' = front ∧ rest' = rest := by
          rw [hq] at hq2
          injection hq2 with h1 h2
          exact ⟨h1.symm, h2.symm⟩
        refine ⟨by rw [queueRids, hq]; simp [hrid], ?_, ha'⟩
        rw [queueRids, hq', hff.2]
        have hpw := h.pwQ
        rw [queueRids, hq] at hpw
        intro hmem
        have := (List.pairwise_cons.1 hpw).1 rid hmem
        rw [hrid] at this
        exact absurd this (by simp)
      · exact absurd hpay (hno front rest hq)
  · intro evs hnotin
    have hlt : rid < s.nextRid := htrid ▸ h.timerLt t htmem
    exact steps_rid_gone evs (by rw [hnext]; exact hlt) hnotin

/-- C2 applied to a concrete run: one in-flight `network` request, its
timer fires, and the promise is rejected with the configured timeout. -/
theorem c2_witness :
    Output.rejected 0 (RejReason.timedOut 8000)
      ∈ (step (run uPlain 0 [Ev.connectCall, Ev.socketOpened, Ev.send "network"]).1
        (Ev.requestTimeout 0)).2 :=
  (@c2_request_timeout (run uPlain 0 [Ev.connectCall, Ev.socketOpened, Ev.send "network"]).1
    0 { rid := 0, payload := "network" }
    (run_inv uPlain 0 [Ev.connectCall, Ev.socketOpened, Ev.send "network"]) rfl).1

/-- C3: Close drain.  On every close event, the whole queue is drained:
each still-pending request is rejected exactly once with the
`Connection closed` error, in FIFO order, and the queue is empty
afterwards.  Request ids in the queue are distinct, so no completion is
rejected twice by the drain. -/
theorem c3_close_drain {s : State} (h : Inv s) (hws : s.ws ≠ WS.null) :
    (step s Ev.socketClosed).1.queue = [] ∧
    (step s Ev.socketClosed).2.filter isRejection =
      s.queue.map (fun it => Output.rejected it.rid RejReason.connectionClosed) ∧
    (queueRids s).Nodup ∧
    errorMessage RejReason.connectionClosed = "Connection closed" := by
  have hnd : (queueRids s).Nodup := h.pwQ.imp (fun hab => Nat.ne_of_lt hab)
  have hdr : (drainOutputs s.queue).filter isRejection =
      s.queue.map (fun it => Output.rejected it.rid RejReason.connectionClosed) := by
    rw [drainOutputs_eq_map]
    refine List.filter_eq_self.2 ?_
    intro o ho
    rcases List.mem_map.1 ho with ⟨it, -, rfl⟩
    rfl
  simp only [step, if_pos hws, onClose, scheduleReconnect]
  split
  · refine ⟨rfl, ?_, hnd, rfl⟩
    simp only [List.filter_cons, List.filter_append]
    rw [hdr]
    simp [isRejection]
  · refine ⟨rfl, ?_, hnd, rfl⟩
    simp only [List.filter_cons]
    rw [hdr]
    simp [isRejection]

/-- C3 applied to a concrete run: a close with one in-flight request
rejects it with the connection-closed error and empties the queue. -/
theorem c3_witness :
    (step (run uPlain 0 [Ev.connectCall, Ev.socketOpened, Ev.send "network"]).1
      Ev.socketClosed).1.queue = [] ∧
    (step (run uPlain 0 [Ev.connectCall, Ev.socketOpened, Ev.send "network"]).1
      Ev.socketClosed).2.filter isRejection =
      [Output.rejected 0 RejReason.connectionClosed] := by
  have h := c3_close_drain
    (run_inv uPlain 0 [Ev.connectCall, Ev.socketOpened, Ev.send "network"]) (by decide)
  exact ⟨h.1, h.2.1.trans rfl⟩

/-- C4: the claim says the in-flight flag is false after every close
handler run.  Failing execution: connect, open, send one command (now in
flight), then the socket closes — the close handler drains the queue but
leaves `awaitingResponse` set, and a command sent after a successful
reconnect is never written to the wire (the ghost write history still only
contains the first request). -/
theorem c4_close_keeps_inflight_flag :
    inFlightCount (run uPlain 0 [Ev.connectCall, Ev.socketOpened, Ev.send "network"]).1 = 1 ∧
    (run uPlain 0
      [Ev.connectCall, Ev.socketOpened, Ev.send "network", Ev.socketClosed]).1.status =
      Status.closed ∧
    (run uPlain 0
      [Ev.connectCall, Ev.socketOpened, Ev.send "network", Ev.socketClosed]).1.queue = [] ∧
    (run uPlain 0
      [Ev.connectCall, Ev.socketOpened, Ev.send "network",
        Ev.socketClosed]).1.awaitingResponse = true ∧
    wireRids (run uPlain 0
      [Ev.connectCall, Ev.socketOpened, Ev.send "network", Ev.socketClosed,
        Ev.connectCall, Ev.socketOpened, Ev.send "tokens"]).2 = [0] :=
  ⟨rfl, rfl, rfl, rfl, rfl⟩

/-- C5 counterexample: with `reconnectInitialDelayMs = 0` the base is `0`,
the claimed interval `[base, base * (1 + jitter))` is empty, yet the code
produces the delay `0`. -/
theorem c5_counterexample :
    ¬ ((baseDelay 12000 0 0 : ℤ) ≤ delayMs 12000 0 (1 / 5) 0 0 ∧
      (delayMs 12000 0 (1 / 5) 0 0 : ℚ) < (baseDelay 12000 0 0 : ℚ) * (1 + 1 / 5)) := by
  intro hcl
  have h1 : baseDelay 12000 0 0 = 0 := by norm_num [baseDelay]
  have h2 : delayMs 12000 0 (1 / 5) 0 0 = 0 := by
    norm_num [delayMs, h1]
  rw [h1, h2] at hcl
  norm_num at hcl

/-- C5 amended: for non-negative jitter fraction and a uniform draw
`u ∈ [0, 1)`, the delay lies in `[base, base * (1 + jitter)]`; the upper
bound is strict whenever `base * jitter > 0` (in particular the original
half-open interval is correct whenever both the effective base and the
jitter fraction are positive). -/
theorem c5_backoff_bounds (maxD initD k : ℕ) (j u : ℚ) (hj : 0 ≤ j) (hu0 : 0 ≤ u)
    (hu1 : u < 1) :
    (baseDelay maxD initD k : ℤ) ≤ delayMs maxD initD j u k ∧
    (delayMs maxD initD j u k : ℚ) ≤ (baseDelay maxD initD k : ℚ) * (1 + j) ∧
    (0 < (baseDelay maxD initD k : ℚ) * j →
      (delayMs maxD initD j u k : ℚ) < (baseDelay maxD initD k : ℚ) * (1 + j)) := by
  set b : ℚ := (baseDelay maxD initD k : ℚ) with hb
  have hb0 : 0 ≤ b := by positivity
  have hjun : 0 ≤ b * j * u := by positivity
  have hup : b + b * j * u ≤ b * (1 + j) := by
    have : b * j * u ≤ b * j * 1 := by
      refine mul_le_mul_of_nonneg_left ?_ (by positivity)
      exact le_of_lt hu1
    nlinarith
  refine ⟨?_, ?_, ?_⟩
  · rw [delayMs, Int.le_floor]
    push_cast
    linarith
  · calc (delayMs maxD initD j u k : ℚ) ≤ b + b * j * u := by
          rw [delayMs]; exact_mod_cast Int.floor_le _
      _ ≤ b * (1 + j) := hup
  · intro hpos
    have hlt : b + b * j * u < b * (1 + j) := by nlinarith
    calc (delayMs maxD initD j u k : ℚ) ≤ b + b * j * u := by
          rw [delayMs]; exact_mod_cast Int.floor_le _
      _ < b * (1 + j) := hlt

/-- C5 amended, applied at concrete values (`base = 2000`, jitter `1/5`,
draw `1/2`, delay `2200`). -/
theorem c5_witness :
    (0 : ℚ) ≤ 1 / 5 ∧ (0 : ℚ) ≤ 1 / 2 ∧ (1 / 2 : ℚ) < 1 ∧
    ((baseDelay 12000 500 2 : ℤ) ≤ delayMs 12000 500 (1 / 5) (1 / 2) 2 ∧
      (delayMs 12000 500 (1 / 5) (1 / 2) 2 : ℚ) ≤ (baseDelay 12000 500 2 : ℚ) * (1 + 1 / 5) ∧
      (0 < (baseDelay 12000 500 2 : ℚ) * (1 / 5) →
        (delayMs 12000 500 (1 / 5) (1 / 2) 2 : ℚ) <
          (baseDelay 12000 500 2 : ℚ) * (1 + 1 / 5))) :=
  ⟨by norm_num, by norm_num, by norm_num,
    c5_backoff_bounds 12000 500 2 (1 / 5) (1 / 2) (by norm_num) (by norm_num) (by norm_num)⟩

/-- C6 counterexample: with `heartbeatIntervalMs` absent from the options,
the constructor merge yields the default `15000`, and after a successful
open the heartbeat interval timer is installed — the monitor does start. -/
theorem c6_counterexample :
    ({} : UserOpts).heartbeatIntervalMs = none ∧
    (mergeOpts {}).heartbeatIntervalMs = some 15000 ∧
    (run {} 0 [Ev.connectCall, Ev.socketOpened]).1.heartbeatTimer = true :=
  ⟨rfl, rfl, rfl⟩

/-- C6 amended: an explicit `heartbeatIntervalMs` of `0` (or `null`)
disables the monitor: along every trace the interval timer is never
installed and a heartbeat tick is a complete no-op (no probe is ever
issued); an absent option instead merges to the default `15000`. -/
theorem c6_heartbeat_disable {u : UserOpts} (rng : ℚ) (evs : List Ev)
    (hd : hbDisabled (mergeOpts u)) :
    (run u rng evs).1.heartbeatTimer = false ∧
    step (run u rng evs).1 Ev.heartbeatIntervalTick = ((run u rng evs).1, []) := by
  obtain ⟨-, hh⟩ := steps_hb_off (s := initState u rng) evs hd rfl
  have hh2 : (run u rng evs).1.heartbeatTimer = false := hh
  refine ⟨hh2, ?_⟩
  simp [step, hh2]

/-- C6 amended, applied to a concrete run with an explicit 0. -/
theorem c6_witness :
    (run uPlain 0 [Ev.connectCall, Ev.socketOpened]).1.heartbeatTimer = false ∧
    step (run uPlain 0 [Ev.connectCall, Ev.socketOpened]).1 Ev.heartbeatIntervalTick =
      ((run uPlain 0 [Ev.connectCall, Ev.socketOpened]).1, []) :=
  c6_heartbeat_disable 0 [Ev.connectCall, Ev.socketOpened] (Or.inl rfl)

/-- C7: `connect()` idempotence.  While the socket is open, `connect`
returns immediately with the state unchanged; while an attempt is pending,
it returns the stored promise with the state unchanged; and a second call
right after a fresh attempt returns the same promise the first call
created, again without changing state. -/
theorem c7_connect_idempotent (s : State) :
    (s.ws = WS.openWS → connectCl s = (s, ConnectOutcome.alreadyOpen)) ∧
    (∀ pid, s.ws ≠ WS.openWS → s.connectPromise = some pid →
      connectCl s = (s, ConnectOutcome.pending pid)) ∧
    (s.ws ≠ WS.openWS → s.connectPromise = none →
      (connectCl s).2 = ConnectOutcome.started s.nextPid ∧
      (connectCl s).1.connectPromise = some s.nextPid ∧
      connectCl ((connectCl s).1) = ((connectCl s).1, ConnectOutcome.pending s.nextPid)) := by
  refine ⟨?_, ?_, ?_⟩
  · intro hws
    simp [connectCl, hws]
  · intro pid hws hp
    simp [connectCl, hws, hp]
  · intro hws hp
    simp [connectCl, hws, hp]

/-- C7 applied to concrete states: a fresh client's first `connect` starts
attempt 0 and a second call joins it; on an open socket `connect` is a
no-op. -/
theorem c7_witness :
    ((connectCl (initState uPlain 0)).2 = ConnectOutcome.started 0 ∧
      (connectCl (initState uPlain 0)).1.connectPromise = some 0 ∧
      connectCl ((connectCl (initState uPlain 0)).1) =
        ((connectCl (initState uPlain 0)).1, ConnectOutcome.pending 0)) ∧
    connectCl (run uPlain 0 [Ev.connectCall, Ev.socketOpened]).1 =
      ((run uPlain 0 [Ev.connectCall, Ev.socketOpened]).1, ConnectOutcome.alreadyOpen) :=
  ⟨(c7_connect_idempotent (initState uPlain 0)).2.2 (by decide) rfl,
    (c7_connect_idempotent (run uPlain 0 [Ev.connectCall, Ev.socketOpened]).1).1 (by decide)⟩

/-- C8: Heartbeat non-interference.  A heartbeat tick with a request in
flight or a non-empty queue is a complete no-op, and any probe written by a
tick implies the queue was empty and nothing was in flight (and the probe
is the `network` command). -/
theorem c8_heartbeat_non_interference (s : State) :
    ((s.awaitingResponse = true ∨ s.queue ≠ []) →
      step s Ev.heartbeatIntervalTick = (s, [])) ∧
    (∀ rid p, Output.sentPayload rid p ∈ (step s Ev.heartbeatIntervalTick).2 →
      s.queue = [] ∧ s.awaitingResponse = false ∧ p = "network") := by
  constructor
  · intro hbusy
    simp only [step]
    split
    · simp only [heartbeatTick, if_pos hbusy]
    · rfl
  · intro rid p hmem
    simp only [step] at hmem
    by_cases hh : s.heartbeatTimer = true
    · rw [if_pos hh] at hmem
      simp only [heartbeatTick] at hmem
      by_cases hbusy : s.awaitingResponse = true ∨ s.queue ≠ []
      · rw [if_pos hbusy] at hmem
        simp at hmem
      · rw [if_neg hbusy] at hmem
        push_neg at hbusy
        obtain ⟨ha, hq⟩ := hbusy
        exact ⟨hq, by simpa using ha, sendCommand_out_mem hq hmem⟩
    · rw [if_neg hh] at hmem
      simp at hmem

/-- C8 applied to a concrete state: with a request in flight, the tick
does nothing. -/
theorem c8_witness :
    step (run uPlain 0 [Ev.connectCall, Ev.socketOpened, Ev.send "network"]).1
        Ev.heartbeatIntervalTick =
      ((run uPlain 0 [Ev.connectCall, Ev.socketOpened, Ev.send "network"]).1, []) :=
  (c8_heartbeat_non_interference
    (run uPlain 0 [Ev.connectCall, Ev.socketOpened, Ev.send "network"]).1).1
    (Or.inl (by decide))

/-- C9: Socket error notifications change nothing but emit an event: the
state after an error event is exactly the state before it, and the only
output is the emitted `error` event (emitted when a socket is attached). -/
theorem c9_error_frame (s : State) :
    (step s Ev.socketError).1 = s ∧
    (step s Ev.socketError).2 = (if s.ws ≠ WS.null then [Output.emitError] else []) := by
  by_cases hws : s.ws ≠ WS.null
  · simp [step, onError, hws]
  · simp [step, onError, hws]

/-- C10: the `reconnecting` event reports the post-increment attempt
counter.  A non-manual close with reconnection enabled emits
`reconnecting` with attempt `k + 1` while its delay is computed from
exponent `k` (the pre-increment counter), the stored counter becomes
`k + 1`, and every successful open resets the counter to `0`. -/
theorem c10_reconnecting_attempt {s : State} (hws : s.ws ≠ WS.null)
    (hm : s.manualClose = false) (hr : s.opts.reconnect = true) :
    (step s Ev.socketClosed).1.reconnectAttempt = s.reconnectAttempt + 1 ∧
    Output.emitReconnecting (s.reconnectAttempt + 1)
        (delayMs s.opts.reconnectMaxDelayMs s.opts.reconnectInitialDelayMs
          s.opts.reconnectJitter s.rng s.reconnectAttempt) ∈ (step s Ev.socketClosed).2 ∧
    (∀ s' : State, s'.ws = WS.connectingWS →
      (step s' Ev.socketOpened).1.reconnectAttempt = 0) := by
  have hcond : ¬ s.manualClose = true ∧ s.opts.reconnect = true := ⟨by simp [hm], hr⟩
  refine ⟨?_, ?_, ?_⟩
  · simp only [step, if_pos hws, onClose, scheduleReconnect, if_pos hcond]
  · simp only [step, if_pos hws, onClose, scheduleReconnect, if_pos hcond]
    simp
  · intro s' hw
    simp only [step, if_pos hw]
    show (startHeartbeat (flushQueue { s' with status := Status.openSt, ws := WS.openWS, reconnectAttempt := 0 }).1).reconnectAttempt = 0
    rw [startHeartbeat_frame]
    obtain ⟨-, -, hra, -⟩ := flushQueue_frame
      { s' with status := Status.openSt, ws := WS.openWS, reconnectAttempt := 0 }
    rw [hra]

/-- C10 applied to a concrete run: the first unexpected close since open
emits attempt 1 with the delay computed from exponent 0, and a later open
resets the counter. -/
theorem c10_witness :
    (step (run uRec 0 [Ev.connectCall, Ev.socketOpened, Ev.send "network"]).1
      Ev.socketClosed).1.reconnectAttempt = 1 ∧
    Output.emitReconnecting 1 (delayMs 12000 500 (1 / 5) 0 0) ∈
      (step (run uRec 0 [Ev.connectCall, Ev.socketOpened, Ev.send "network"]).1
        Ev.socketClosed).2 := by
  have h := c10_reconnecting_attempt
    (s := (run uRec 0 [Ev.connectCall, Ev.socketOpened, Ev.send "network"]).1)
    (by decide) rfl rfl
  exact ⟨h.1, h.2.1⟩

end Valis
